import Mathlib

/-!
Verification of the orchestrator-agent decision loop of glassboxapi
(src/agent/langtrace.py, with registries from src/agent/tools_and_agents.py,
tool bodies from src/agent/tool_functions.py and the prompt from
src/agent/prompts.py).

The Python code is shallowly embedded: every definition below is translated
from the source file it names.  The language model (the `openai` client
wrapped by `chat_openai` / `call_llm`) is an external collaborator; it is
modelled as an oracle `Nat → String × String` giving, for each round of the
loop, the content text of the two model responses of that round (the
tool-selection response consumed at langtrace.py line 57 and the decision
response consumed at line 142).  Python exceptions that the source does not
catch are modelled by `Option`: a run that raises returns `none`.
`json.loads` from the Python standard library is modelled by `jsonParse`
below (JSON subset: the standard grammar with string escapes, plus the
NaN/Infinity extensions CPython accepts; `\u` surrogate pairs are not
combined and non-ASCII case mapping is not modelled — no registry or test
string needs either).
-/

/-! ## Python string primitives -/

/-- The characters Python `str.strip()` removes (ASCII whitespace). -/
def pyWsChar (c : Char) : Bool :=
  c = ' ' || c = '\t' || c = '\n' || c = '\r' || c = Char.ofNat 11 || c = Char.ofNat 12

/-- Python `s.strip()`. -/
def pyStrip (s : String) : String :=
  String.mk (((s.toList.dropWhile pyWsChar).reverse.dropWhile pyWsChar).reverse)

/-- Python `s.lower()` (ASCII range, which covers every name in the registries). -/
def pyLower (s : String) : String :=
  String.mk (s.toList.map Char.toLower)

/-- Python `s.split(sep)` for a one-character separator: keeps empty pieces. -/
def pySplitChar (sep : Char) : List Char → List (List Char)
  | [] => [[]]
  | c :: rest =>
    match pySplitChar sep rest with
    | h :: t => if c = sep then [] :: h :: t else (c :: h) :: t
    | [] => [[]]

/-- Python `repr` of a string that contains no quote or escape characters
(every registry name qualifies); used where an f-string renders a list. -/
def pyReprStr (s : String) : String := "\x27" ++ s ++ "\x27"

/-- Python `str` of a list of plain strings, as an f-string renders it. -/
def pyReprStrList (xs : List String) : String :=
  "[" ++ String.intercalate (", ") (xs.map pyReprStr) ++ "]"

/-- Python `needle in hay` on strings: substring containment. -/
def strContainsSub (hay needle : String) : Bool :=
  (List.range (hay.length + 1)).any (fun i => needle.toList.isPrefixOf (hay.toList.drop i))

/-! ## Model of Python `json.loads` -/

/-- A parsed JSON value.  Numbers keep their lexeme: no claim inspects a
numeric value, only the shape of the parse. -/
inductive JsonVal where
  | null
  | bool (b : Bool)
  | num (lit : String)
  | str (s : String)
  | arr (elems : List JsonVal)
  | obj (fields : List (String × JsonVal))

/-- Whether a JSON value is an array (Python `isinstance(x, list)`). -/
def JsonVal.isArr : JsonVal → Bool
  | .arr _ => true
  | _ => false

/-- JSON inter-token whitespace (what `json.loads` skips). -/
def isJsonWs (c : Char) : Bool := c = ' ' || c = '\t' || c = '\n' || c = '\r'

def skipWs : List Char → List Char
  | [] => []
  | c :: cs => if isJsonWs c then skipWs cs else c :: cs

def hexVal (c : Char) : Option Nat :=
  if '0' ≤ c ∧ c ≤ '9' then some (c.toNat - Char.toNat '0')
  else if 'a' ≤ c ∧ c ≤ 'f' then some (c.toNat - Char.toNat 'a' + 10)
  else if 'A' ≤ c ∧ c ≤ 'F' then some (c.toNat - Char.toNat 'A' + 10)
  else none

def escChar : Char → Option Char
  | '"' => some '"'
  | '\\' => some '\\'
  | '/' => some '/'
  | 'b' => some (Char.ofNat 8)
  | 'f' => some (Char.ofNat 12)
  | 'n' => some '\n'
  | 'r' => some '\r'
  | 't' => some '\t'
  | _ => none

/-- Body of a JSON string after the opening quote: returns the decoded
characters and the rest of the input after the closing quote. -/
def parseStrBody : List Char → Option (List Char × List Char)
  | [] => none
  | '"' :: rest => some ([], rest)
  | '\\' :: 'u' :: h1 :: h2 :: h3 :: h4 :: rest =>
    match hexVal h1, hexVal h2, hexVal h3, hexVal h4 with
    | some a, some b, some c, some d =>
      (parseStrBody rest).map (fun p => (Char.ofNat (((a * 16 + b) * 16 + c) * 16 + d) :: p.1, p.2))
    | _, _, _, _ => none
  | '\\' :: e :: rest =>
    match escChar e with
    | some c => (parseStrBody rest).map (fun p => (c :: p.1, p.2))
    | none => none
  | c :: rest => (parseStrBody rest).map (fun p => (c :: p.1, p.2))

def takeDigits : List Char → List Char × List Char
  | [] => ([], [])
  | c :: cs => if c.isDigit then (fun p => (c :: p.1, p.2)) (takeDigits cs) else ([], c :: cs)

/-- Integer part of a JSON number: a single 0, or a nonzero digit then digits. -/
def parseIntPart : List Char → Option (List Char × List Char)
  | [] => none
  | c :: r =>
    if c = '0' then some ([c], r)
    else if c.isDigit then (fun p => some (c :: p.1, p.2)) (takeDigits r)
    else none

/-- Optional fraction part: a dot must be followed by at least one digit. -/
def parseFracPart : List Char → Option (List Char × List Char)
  | '.' :: r =>
    (fun p => if p.1.isEmpty then none else some ('.' :: p.1, p.2)) (takeDigits r)
  | cs => some ([], cs)

/-- Optional exponent part: e/E, optional sign, at least one digit. -/
def parseExpPart : List Char → Option (List Char × List Char)
  | [] => some ([], [])
  | c :: r =>
    if c = 'e' ∨ c = 'E' then
      match r with
      | s :: r1 =>
        if s = '+' ∨ s = '-' then
          (fun p => if p.1.isEmpty then none else some (c :: s :: p.1, p.2)) (takeDigits r1)
        else
          (fun p => if p.1.isEmpty then none else some (c :: p.1, p.2)) (takeDigits r)
      | [] => none
    else some ([], c :: r)

/-- A JSON number, kept as its lexeme. -/
def parseNumber (cs : List Char) : Option (List Char × List Char) :=
  let (neg, cs1) := match cs with
    | '-' :: r => (['-'], r)
    | _ => (([] : List Char), cs)
  match parseIntPart cs1 with
  | none => none
  | some (ip, cs2) =>
    match parseFracPart cs2 with
    | none => none
    | some (fp, cs3) =>
      match parseExpPart cs3 with
      | none => none
      | some (ep, cs4) => some (neg ++ ip ++ fp ++ ep, cs4)

/-- Drop a literal keyword prefix, or fail. -/
def dropLit : List Char → List Char → Option (List Char)
  | [], cs => some cs
  | p :: ps, c :: cs => if c = p then dropLit ps cs else none
  | _ :: _, [] => none

/-- Python dicts keep one entry per key, last assignment winning in place;
`json.loads` builds objects that way. -/
def insertField (fields : List (String × JsonVal)) (k : String) (v : JsonVal) :
    List (String × JsonVal) :=
  if fields.any (fun p => p.1 == k) then
    fields.map (fun p => if p.1 == k then (k, v) else p)
  else fields ++ [(k, v)]

def collapseFields (pairs : List (String × JsonVal)) : List (String × JsonVal) :=
  pairs.foldl (fun fs kv => insertField fs kv.1 kv.2) []

def lbrace : Char := Char.ofNat 123

def rbrace : Char := Char.ofNat 125

mutual

/-- One JSON value, fuelled; the fuel given by `jsonParse` always suffices. -/
def parseValue : Nat → List Char → Option (JsonVal × List Char)
  | 0, _ => none
  | fuel + 1, cs0 =>
    match skipWs cs0 with
    | [] => none
    | c :: rest =>
      if c = '"' then
        (parseStrBody rest).map (fun p => (JsonVal.str (String.mk p.1), p.2))
      else if c = '[' then
        match skipWs rest with
        | ']' :: r2 => some (JsonVal.arr [], r2)
        | cs2 => (parseElems fuel cs2).map (fun p => (JsonVal.arr p.1, p.2))
      else if c = lbrace then
        match skipWs rest with
        | [] => none
        | c2 :: r2 =>
          if c2 = rbrace then some (JsonVal.obj [], r2)
          else (parseFields fuel (c2 :: r2)).map (fun p => (JsonVal.obj (collapseFields p.1), p.2))
      else
        match dropLit ("true".toList) (c :: rest) with
        | some r => some (JsonVal.bool true, r)
        | none =>
        match dropLit ("false".toList) (c :: rest) with
        | some r => some (JsonVal.bool false, r)
        | none =>
        match dropLit ("null".toList) (c :: rest) with
        | some r => some (JsonVal.null, r)
        | none =>
        match dropLit ("NaN".toList) (c :: rest) with
        | some r => some (JsonVal.num ("NaN"), r)
        | none =>
        match dropLit ("Infinity".toList) (c :: rest) with
        | some r => some (JsonVal.num ("Infinity"), r)
        | none =>
        match dropLit ("-Infinity".toList) (c :: rest) with
        | some r => some (JsonVal.num ("-Infinity"), r)
        | none => (parseNumber (c :: rest)).map (fun p => (JsonVal.num (String.mk p.1), p.2))

/-- Array elements after the opening bracket (at least one). -/
def parseElems : Nat → List Char → Option (List JsonVal × List Char)
  | 0, _ => none
  | fuel + 1, cs =>
    match parseValue fuel cs with
    | none => none
    | some (v, r) =>
      match skipWs r with
      | ',' :: r2 => (parseElems fuel r2).map (fun p => (v :: p.1, p.2))
      | ']' :: r2 => some ([v], r2)
      | _ => none

/-- Object members after the opening brace (at least one). -/
def parseFields : Nat → List Char → Option (List (String × JsonVal) × List Char)
  | 0, _ => none
  | fuel + 1, cs =>
    match skipWs cs with
    | [] => none
    | c :: r =>
      if c = '"' then
        match parseStrBody r with
        | none => none
        | some (key, r1) =>
          match skipWs r1 with
          | ':' :: r2 =>
            match parseValue fuel r2 with
            | none => none
            | some (v, r3) =>
              match skipWs r3 with
              | [] => none
              | c4 :: r4 =>
                if c4 = ',' then
                  (parseFields fuel r4).map (fun p => ((String.mk key, v) :: p.1, p.2))
                else if c4 = rbrace then some ([(String.mk key, v)], r4)
                else none
          | _ => none
      else none

end

/-- Model of Python `json.loads`: the whole input must be one JSON value
(with surrounding whitespace); anything else raises, i.e. returns `none`. -/
def jsonParse (s : String) : Option JsonVal :=
  match parseValue (4 * s.length + 8) s.toList with
  | some (v, rest) => if (skipWs rest).isEmpty then some v else none
  | none => none

/-- Python `dict.get(k, dflt)` on a parsed JSON object. -/
def objGet (fields : List (String × JsonVal)) (k : String) (dflt : JsonVal) : JsonVal :=
  match fields.find? (fun p => p.1 == k) with
  | some p => p.2
  | none => dflt

/-! ## Registries (src/agent/tools_and_agents.py) -/

/-- An entry of the TOOLS list (the callable is the matching function below). -/
structure ToolDescriptor where
  name : String
  description : String

/-- The Tool Registry, tools_and_agents.py lines 9 to 30. -/
def TOOLS : List ToolDescriptor :=
  [⟨"search_latest_knowledge", "Searches the latest knowledge base for relevant information."⟩,
   ⟨"vector_store_retriever", "Retrieves relevant information from the vector store based on the query."⟩,
   ⟨"batch_process_client_docs", "Processes and extracts information from all client-uploaded PDF documents."⟩,
   ⟨"lookup_HSCode_details", "Looks up details and regulations for a given HSCode."⟩]

/-- An entry of the AGENTS list (handoff targets, not tools). -/
structure AgentDescriptor where
  name : String
  description : String

/-- The Agent Registry, tools_and_agents.py lines 33 to 46. -/
def AGENTS : List AgentDescriptor :=
  [⟨"declaration_review", "Use when product classification is unclear, documentation is incomplete or ambiguous, or multiple HS/HTS codes apply."⟩,
   ⟨"regulatory_sustainability", "Use when the item may violate import/export laws, require special licenses, or involve ESG, REACH, CBAM, or other regulatory compliance concerns."⟩,
   ⟨"sourcing_logistics", "Use when everything is in order and the shipment is routine, well-documented, and ready for normal processing."⟩]

def toolRegistryNames : List String := TOOLS.map (fun t => t.name)

def agentRegistryNames : List String := AGENTS.map (fun a => a.name)

/-! ## Tool implementations (src/agent/tool_functions.py) -/

/-- One entry of the list built by process_client_submissions: the PageContent
string and the Lines.From / Lines.To numbers of its Metadata. -/
structure ParsedDoc where
  pageContent : String
  locFrom : Nat
  locTo : Nat
deriving DecidableEq

/-- A tool result: the string lists most tools return, or the document list of
the batch tool.  (sleep calls are timing only and are not modelled.) -/
inductive ToolResult where
  | strs (xs : List String)
  | docs (ds : List ParsedDoc)
deriving DecidableEq

/-- tool_functions.py lookup_HSCode_details. -/
def lookup_HSCode_details (code : String) : List String :=
  ["HSCode search result for: " ++ code]

/-- tool_functions.py search_latest_knowledge (its nested HSCode lookups are
inlined; they are opaque to the dispatcher). -/
def search_latest_knowledge (query : String) : List String :=
  ["Latest knowledge about: " ++ query] ++ lookup_HSCode_details ("0101.21")
    ++ lookup_HSCode_details ("0202.30") ++ lookup_HSCode_details ("0303.40")

/-- tool_functions.py VectorStoreRetriever. -/
def VectorStoreRetriever (query : String) : List String :=
  ["Vector store result for: " ++ query]

/-- tool_functions.py extract_text_from_pdf. -/
def extract_text_from_pdf (file : String) : String :=
  "Parsed content of " ++ file

/-- tool_functions.py process_client_submissions. -/
def process_client_submissions (files : List String) : List ParsedDoc :=
  files.enum.map (fun p => ⟨extract_text_from_pdf p.2, 10 * p.1 + 1, 10 * p.1 + 5⟩)

/-- langtrace.py lines 114 to 124, execute_tool: dispatch by name, `none`
(Python None) for a name outside the registry. -/
def execute_tool (tool_name : String) (question : String) : Option ToolResult :=
  if tool_name = "search_latest_knowledge" then some (ToolResult.strs (search_latest_knowledge question))
  else if tool_name = "vector_store_retriever" then some (ToolResult.strs (VectorStoreRetriever question))
  else if tool_name = "batch_process_client_docs" then
    some (ToolResult.docs (process_client_submissions ["file1.pdf", "file2.pdf", "file3.pdf"]))
  else if tool_name = "lookup_HSCode_details" then
    some (ToolResult.strs (lookup_HSCode_details ("0101.21")))
  else none

/-! ## Prompts (langtrace.py lines 30 to 38 and 55 to 56, prompts.py) -/

/-- The tool-output cache `context["tool_outputs"]`: a Python dict in
insertion order, values being what execute_tool returned. -/
abbrev Cache := List (String × Option ToolResult)

/-- Python `d[k]` lookup (dict keys are unique, so the first hit is the
entry); `cache[k]` exists iff this is `some`. -/
def cacheGet? : Cache → String → Option (Option ToolResult)
  | [], _ => none
  | p :: rest, k => if p.1 = k then some p.2 else cacheGet? rest k

/-- Python `k in d` on the cache. -/
def cacheHas (cache : Cache) (k : String) : Bool :=
  (cacheGet? cache k).isSome

/-- Python `d[k] = v`: overwrite in place if the key exists, else append. -/
def cacheAssign : Cache → String → Option ToolResult → Cache
  | [], k, v => [(k, v)]
  | p :: rest, k, v => if p.1 = k then (k, v) :: rest else p :: cacheAssign rest k v

/-- Python `str` of an execute_tool result, as the tool-context f-string at
langtrace.py line 36 renders it. -/
def pyStrToolResult : Option ToolResult → String
  | none => "None"
  | some (ToolResult.strs xs) => pyReprStrList xs
  | some (ToolResult.docs ds) =>
    "[" ++ String.intercalate (", ")
      (ds.map (fun d =>
        "\x7b\x27PageContent\x27: " ++ pyReprStr d.pageContent
          ++ ", \x27Metadata\x27: \x7b\x27Loc\x27: \x7b\x27Lines\x27: \x7b\x27From\x27: "
          ++ toString d.locFrom ++ ", \x27To\x27: " ++ toString d.locTo
          ++ "\x7d\x7d\x7d\x7d")) ++ "]"

/-- langtrace.py lines 30 to 38, chat_prompt_template: a system message, the
question as a user message when truthy, the rendered tool outputs as a second
system message when the dict is truthy (a Python empty dict is falsy). -/
def chat_prompt_template (system_message : String) (question : Option String)
    (tool_outputs : Option Cache) : List (String × String) :=
  let m1 : List (String × String) := [("system", system_message)]
  let m2 := match question with
    | some q => if q = "" then m1 else m1 ++ [("user", q)]
    | none => m1
  match tool_outputs with
  | some ts =>
    if ts.isEmpty then m2
    else m2 ++ [("system", "\nTool outputs:\n" ++ String.intercalate "\n"
      (ts.map (fun p => p.1 ++ ": " ++ pyStrToolResult p.2)))]
  | none => m2

/-- langtrace.py line 55: the routing prompt of decide_and_call_tool, with the
question and the tool-name list rendered inline by the f-string. -/
def routing_prompt (question : String) (tool_list : List String) : String :=
  "Given the question: \x27" ++ question ++ "\x27, and these tools: "
    ++ pyReprStrList tool_list
    ++ ", which tool(s) should be used? Respond with a comma-separated list of tool names, or a JSON list if you prefer."

/-- prompts.py get_orchestrator_prompt. -/
def get_orchestrator_prompt (tool_descriptions : String) (agent_descriptions : String)
    (allowed_agents_text : String) : String :=
  "You are the router agent. Given the question and the input (from mock input), decide whether we should call one or multiple tools to learn more about the situation or if we are ready to make a decision on a handoff.\n"
    ++ "When you are ready to make a final decision, your routing_decision must be one of the following agent handoffs: "
    ++ allowed_agents_text
    ++ ", or \x27done\x27 if no further action is needed. Do not invent new agent names.\n"
    ++ "For each possible agent, provide a confidence score (0-1) for how appropriate it is for this case.\n"
    ++ "Return your answer as a JSON object with keys: chain_of_thought (string), routing_decision (string - a single agent name for the final decision), confidences (dict of agent name to confidence float).\n"
    ++ "Let\x27s think step by step:\n"
    ++ "- Review document types and content\n"
    ++ "- Determine if more tool calls are needed\n"
    ++ "- Determine if a handoff is needed and to which agent\n"
    ++ "\nAvailable tools:\n" ++ tool_descriptions
    ++ "\nAvailable agents for handoff:\n" ++ agent_descriptions

/-! ## Response parsing (langtrace.py lines 53 to 112) -/

/-- Comma split with strip-and-drop-empties, langtrace.py line 73. -/
def split_clean (sep : Char) (content : String) : List String :=
  ((pySplitChar sep content.toList).map (fun cs => pyStrip (String.mk cs))).filter
    (fun t => t ≠ "")

/-- The except-branch of decide_and_call_tool, langtrace.py lines 70 to 75:
comma split when a comma occurs, else newline split. -/
def tool_fallback (content : String) : List String :=
  if content.toList.contains ',' then split_clean ',' content
  else split_clean '\n' content

/-- All elements of a parsed JSON list as strings; `none` models the
AttributeError a non-string element raises under `t.strip()`. -/
def allStrings : List JsonVal → Option (List String)
  | [] => some []
  | JsonVal.str s :: rest => (allStrings rest).map (fun l => s :: l)
  | _ :: _ => none

/-- langtrace.py lines 58 to 75: the parsing part of decide_and_call_tool,
applied to the stripped response content.  A JSON list of strings is returned
stripped; a JSON parse error, or a non-string element raising inside the try
block, takes the comma/newline fallback; JSON that parses to a non-list falls
out of the try block and the function returns Python None, i.e. `none`. -/
def parse_tool_decisions (content : String) : Option (List String) :=
  match jsonParse content with
  | some (JsonVal.arr xs) =>
    match allStrings xs with
    | some ss => some (ss.map pyStrip)
    | none => some (tool_fallback content)
  | some _ => none
  | none => some (tool_fallback content)

/-- decide_and_call_tool on the model response content (line 60 strips it). -/
def decide_and_call_tool (responseContent : String) : Option (List String) :=
  parse_tool_decisions (pyStrip responseContent)

/-- The record agent_output_parser returns (langtrace.py lines 102 to 112);
each field holds whatever JSON value `data.get` produced. -/
structure ParsedLLM where
  chain_of_thought : JsonVal
  routing_decision : JsonVal
  confidences : JsonVal

/-- The except-branch record of agent_output_parser, lines 107 to 112. -/
def parseFailDefault : ParsedLLM :=
  ⟨JsonVal.str ("Could not parse LLM output."), JsonVal.arr [], JsonVal.obj []⟩

/-- langtrace.py lines 97 to 112, agent_output_parser: parse the content as
JSON and read the three keys with per-key defaults; any exception (parse
error, or `.get` on a non-dict) yields the fixed failure record.  Named
without the source's trailing noun for technical reasons. -/
def agent_output_parse (content : String) : ParsedLLM :=
  match jsonParse content with
  | some (JsonVal.obj fields) =>
    ⟨objGet fields ("chain_of_thought") (JsonVal.str ("")),
     objGet fields ("routing_decision") (JsonVal.arr []),
     objGet fields ("confidences") (JsonVal.obj [])⟩
  | some _ => parseFailDefault
  | none => parseFailDefault

/-- Python iteration over the routing_decision value as langtrace.py line 183
performs it: a list iterates its elements, every one of which must be a
string or `a.lower()` raises; a string iterates its characters; a dict
iterates its keys; anything else raises TypeError.  `none` models the raise,
which the loop does not catch. -/
def iterStrs : JsonVal → Option (List String)
  | JsonVal.arr xs => allStrings xs
  | JsonVal.str s => some (s.toList.map (fun c => c.toString))
  | JsonVal.obj fields => some (fields.map (fun p => p.1))
  | _ => none

/-! ## Orchestrator step and decision loop (langtrace.py lines 126 to 200) -/

/-- The model gateway as an oracle: round number to the content strings of
that round's two responses (tool selection, then decision).  The source
builds the prompts from the question and cache and sends them; since the
model is a black box, quantifying over `Oracle` covers every reply it could
give, and prompt construction is modelled by `routing_prompt`,
`get_orchestrator_prompt` and `chat_prompt_template` above. -/
abbrev Oracle := Nat → String × String

/-- The keys of orchestrator_agent's result dict that the loop reads.  (The
llm_response and the parsed_plan string f"Parsed: {plan}" are carried along
in the source but never read; chain_of_thought / routing_decision /
confidences duplicate the parsed_llm fields, langtrace.py lines 150 to 152.) -/
structure OrchestratorResult where
  plan : Option (List String)
  tool_output : Option Cache
  parsed_llm : ParsedLLM

/-- langtrace.py lines 126 to 153, orchestrator_agent, paired with the list
of execute_tool invocations it performs: line 136 executes every planned tool
unconditionally (the dict comprehension consults no cache; the tool_outputs
argument only feeds the prompt).  The plan is never a bare string, so the
isinstance(plan, str) branch at line 137 is unreachable. -/
def orchestrator_agent (oracle : Oracle) (round : Nat) (question : String)
    (_tool_outputs : Cache) : OrchestratorResult × List String :=
  let plan := decide_and_call_tool (oracle round).1
  let tool_output := plan.map (fun ts =>
    ts.foldl (fun d t => cacheAssign d t (execute_tool t question)) [])
  (⟨plan, tool_output, agent_output_parse (oracle round).2⟩, plan.getD [])

/-- One trajectory entry, langtrace.py lines 168 to 171: the round's
orchestrator result and a snapshot of the cache taken before this round's
loop-level dispatch. -/
structure RoundEntry where
  orchestrator_result : OrchestratorResult
  tool_outputs : Cache

/-- langtrace.py line 165: the lower-cased agent names. -/
def allowed_agents : List String := AGENTS.map (fun a => pyLower a.name)

/-- langtrace.py line 183: a.lower().strip(). -/
def normalizeName (a : String) : String := pyStrip (pyLower a)

/-- langtrace.py line 184: the loop's break condition on the normalized
routing decision. -/
def terminationCheck (normalized : List String) : Bool :=
  (normalized.all (fun a => allowed_agents.contains a)) || normalized == ["done"]

/-- langtrace.py lines 179 to 181: the loop's plan-tool dispatch pass, paired
with the names it invoked.  A name is dispatched when truthy, absent from the
cache, not a (lower-cased) agent name and not the done sentinel. -/
def planPass (question : String) : List String → Cache → Cache × List String
  | [], cache => (cache, [])
  | t :: ts, cache =>
    if t ≠ "" ∧ cacheHas cache t = false ∧ allowed_agents.contains t = false ∧ t ≠ "done" then
      let next := planPass question ts (cacheAssign cache t (execute_tool t question))
      (next.1, t :: next.2)
    else planPass question ts cache

/-- langtrace.py lines 187 to 195: the secondary dispatch pass over the
routing decision, paired with the names it invoked.  A cached name is
skipped; any other is dispatched and cached, registry member or not.  (The
isinstance(tool_name, list) branch at line 190 is unreachable: a non-string
element already raised at line 183.) -/
def routingPass (question : String) : List String → Cache → Cache × List String
  | [], cache => (cache, [])
  | t :: ts, cache =>
    if cacheHas cache t = true then routingPass question ts cache
    else
      let next := routingPass question ts (cacheAssign cache t (execute_tool t question))
      (next.1, t :: next.2)

/-- langtrace.py lines 166 to 196: the while loop, with the remaining step
budget as fuel (`fuel = max_steps - steps`; the while condition is
`steps < max_steps`).  Returns the trajectory built from this point, the
final cache and every execute_tool invocation, or `none` when the run raises
at line 183 on a routing_decision that does not iterate to strings. -/
def loopRounds (oracle : Oracle) (question : String) :
    Nat → Nat → Cache → Option (List RoundEntry × Cache × List String)
  | 0, _, cache => some ([], cache, [])
  | fuel + 1, round, cache =>
    let res := (orchestrator_agent oracle round question cache).1
    let orchInvs := (orchestrator_agent oracle round question cache).2
    let entry : RoundEntry := ⟨res, cache⟩
    let pp := planPass question (res.plan.getD []) cache
    match iterStrs res.parsed_llm.routing_decision with
    | none => none
    | some names =>
      if terminationCheck (names.map normalizeName) then
        some ([entry], pp.1, orchInvs ++ pp.2)
      else
        let rp := routingPass question names pp.1
        match loopRounds oracle question fuel (round + 1) rp.1 with
        | none => none
        | some (rest, cF, invsF) =>
          some (entry :: rest, cF, orchInvs ++ pp.2 ++ rp.2 ++ invsF)

/-- langtrace.py lines 155 to 156, format_case_dict. -/
def format_case_dict (case_dict : List (String × String)) : String :=
  String.intercalate "\n" (case_dict.map (fun kv => kv.1 ++ ": " ++ kv.2))

/-- langtrace.py line 163. -/
def max_steps : Nat := 10

/-- The run outcome dict of langtrace.py lines 197 to 200. -/
structure RunOutcome where
  trajectory : List RoundEntry
  final_decision : OrchestratorResult

/-- langtrace.py lines 158 to 200, runnable_agent, instrumented with the
final cache and the execute_tool invocation list.  `none` models an uncaught
exception escaping the run.  The empty-trajectory arm mirrors the NameError
that line 199 would raise had no round run; it is unreachable because
max_steps is 10. -/
def runnable_agent (oracle : Oracle) (case_dict : List (String × String)) :
    Option (RunOutcome × Cache × List String) :=
  let question := format_case_dict case_dict
  match loopRounds oracle question max_steps 0 [] with
  | none => none
  | some (traj, cache, invs) =>
    match traj.getLast? with
    | some last => some (⟨traj, last.orchestrator_result⟩, cache, invs)
    | none => none

/-! ## Concrete model stubs used by the claims -/

/-- A decision response that routes to the done sentinel. -/
def doneDecision : String :=
  "\x7b\"chain_of_thought\": \"x\", \"routing_decision\": [\"done\"], \"confidences\": \x7b\x7d\x7d"

/-- Round 1: no tools, route to done.  The end-to-end stub of the spec. -/
def oracleDone : Oracle := fun _ => ("[]", doneDecision)

/-- Round 1: plan one real tool, then route to done. -/
def oracleC1 : Oracle := fun _ => ("[\"search_latest_knowledge\"]", doneDecision)

/-- A decision response routing to a name outside the Agent Registry. -/
def unknownDecision : String := "\x7b\"routing_decision\": [\"unknown_agent\"]\x7d"

/-- Round 1 routes to unknown_agent, later rounds to done. -/
def oracleUnknown : Oracle := fun r => ("[]", if r = 0 then unknownDecision else doneDecision)

/-- A decision response whose routing_decision is valid JSON but not a list
of strings: line 183 raises TypeError on it. -/
def badTypeDecision : String := "\x7b\"routing_decision\": 0\x7d"

def oracleBadType : Oracle := fun _ => ("[]", badTypeDecision)

/-- A model that never returns JSON: both parsers fall back to defaults. -/
def oracleNotJson : Oracle := fun _ => ("", "not json")

/-! ## Supporting lemmas -/

theorem cacheGet?_assign_self (cache : Cache) (k : String) (v : Option ToolResult) :
    cacheGet? (cacheAssign cache k v) k = some v := by
  induction cache with
  | nil => simp [cacheAssign, cacheGet?]
  | cons p rest ih =>
    by_cases hk : p.1 = k
    · simp [cacheAssign, hk, cacheGet?]
    · simp [cacheAssign, hk, cacheGet?, ih]

theorem cacheGet?_assign_ne (cache : Cache) (k t : String) (v : Option ToolResult)
    (h : t ≠ k) : cacheGet? (cacheAssign cache k v) t = cacheGet? cache t := by
  induction cache with
  | nil => simp [cacheAssign, cacheGet?, Ne.symm h]
  | cons p rest ih =>
    by_cases hk : p.1 = k
    · simp [cacheAssign, hk, cacheGet?, Ne.symm h, ih]
    · simp [cacheAssign, hk, cacheGet?, ih]

theorem cacheHas_assign (cache : Cache) (k t : String) (v : Option ToolResult)
    (h : cacheHas cache t = true) : cacheHas (cacheAssign cache k v) t = true := by
  by_cases ht : t = k
  · subst ht; simp [cacheHas, cacheGet?_assign_self]
  · simpa [cacheHas, cacheGet?_assign_ne cache k t v ht] using h

theorem cacheHas_of_get (cache : Cache) (t : String) (v : Option ToolResult)
    (h : cacheGet? cache t = some v) : cacheHas cache t = true := by
  simp [cacheHas, h]

/-- The loop-level plan-tool pass preserves every existing binding. -/
theorem planPass_get (q : String) :
    ∀ (ts : List String) (cache : Cache) (t : String) (v : Option ToolResult),
      cacheGet? cache t = some v → cacheGet? (planPass q ts cache).1 t = some v
  | [], _cache, _t, _v, h => h
  | t0 :: ts, cache, t, v, h => by
    simp only [planPass]
    split
    · rename_i hc
      have hne : t ≠ t0 := by
        intro he
        subst he
        rw [cacheHas_of_get cache t v h] at hc
        exact absurd hc.2.1 (by decide)
      exact planPass_get q ts _ t v (by rw [cacheGet?_assign_ne _ _ _ _ hne]; exact h)
    · exact planPass_get q ts cache t v h

/-- The plan-tool pass never invokes a name already in the cache. -/
theorem planPass_not_inv (q : String) :
    ∀ (ts : List String) (cache : Cache) (t : String),
      cacheHas cache t = true → t ∉ (planPass q ts cache).2
  | [], _cache, _t, _h => by simp [planPass]
  | t0 :: ts, cache, t, h => by
    simp only [planPass]
    split
    · rename_i hc
      have hne : t ≠ t0 := by
        intro he
        subst he
        rw [h] at hc
        exact absurd hc.2.1 (by decide)
      simp only [List.mem_cons, not_or]
      exact ⟨hne, planPass_not_inv q ts _ t (cacheHas_assign cache t0 t _ h)⟩
    · exact planPass_not_inv q ts cache t h

/-- The routing-decision pass preserves every existing binding. -/
theorem routingPass_get (q : String) :
    ∀ (ns : List String) (cache : Cache) (t : String) (v : Option ToolResult),
      cacheGet? cache t = some v → cacheGet? (routingPass q ns cache).1 t = some v
  | [], _cache, _t, _v, h => h
  | t0 :: ts, cache, t, v, h => by
    simp only [routingPass]
    split
    · exact routingPass_get q ts cache t v h
    · rename_i hc
      have hne : t ≠ t0 := by
        intro he
        subst he
        exact hc (cacheHas_of_get cache t v h)
      exact routingPass_get q ts _ t v (by rw [cacheGet?_assign_ne _ _ _ _ hne]; exact h)

/-- The routing-decision pass never invokes a name already in the cache. -/
theorem routingPass_not_inv (q : String) :
    ∀ (ns : List String) (cache : Cache) (t : String),
      cacheHas cache t = true → t ∉ (routingPass q ns cache).2
  | [], _cache, _t, _h => by simp [routingPass]
  | t0 :: ts, cache, t, h => by
    simp only [routingPass]
    split
    · exact routingPass_not_inv q ts cache t h
    · rename_i hc
      have hne : t ≠ t0 := by
        intro he
        subst he
        exact hc h
      simp only [List.mem_cons, not_or]
      exact ⟨hne, routingPass_not_inv q ts _ t (cacheHas_assign cache t0 t _ h)⟩

theorem orchestrator_parsed (oracle : Oracle) (round : Nat) (q : String) (cache : Cache) :
    ((orchestrator_agent oracle round q cache).1).parsed_llm
      = agent_output_parse (oracle round).2 := rfl

theorem orchestrator_plan (oracle : Oracle) (round : Nat) (q : String) (cache : Cache) :
    ((orchestrator_agent oracle round q cache).1).plan
      = decide_and_call_tool (oracle round).1 := rfl

/-- One unfolding step of the loop. -/
theorem loopRounds_succ (oracle : Oracle) (q : String) (fuel round : Nat) (cache : Cache) :
    loopRounds oracle q (fuel + 1) round cache =
      match iterStrs ((orchestrator_agent oracle round q cache).1.parsed_llm.routing_decision) with
      | none => none
      | some names =>
        if terminationCheck (names.map normalizeName) then
          some ([⟨(orchestrator_agent oracle round q cache).1, cache⟩],
            (planPass q ((orchestrator_agent oracle round q cache).1.plan.getD []) cache).1,
            (orchestrator_agent oracle round q cache).2
              ++ (planPass q ((orchestrator_agent oracle round q cache).1.plan.getD []) cache).2)
        else
          match loopRounds oracle q fuel (round + 1)
              (routingPass q names
                (planPass q ((orchestrator_agent oracle round q cache).1.plan.getD []) cache).1).1 with
          | none => none
          | some (rest, cF, invsF) =>
            some (⟨(orchestrator_agent oracle round q cache).1, cache⟩ :: rest, cF,
              (orchestrator_agent oracle round q cache).2
                ++ (planPass q ((orchestrator_agent oracle round q cache).1.plan.getD []) cache).2
                ++ (routingPass q names
                    (planPass q ((orchestrator_agent oracle round q cache).1.plan.getD []) cache).1).2
                ++ invsF) := rfl

/-- Every binding present when the loop starts survives to the final cache. -/
theorem loopRounds_get (oracle : Oracle) (q t : String) (v : Option ToolResult) :
    ∀ (fuel round : Nat) (cache : Cache) (traj : List RoundEntry) (c : Cache) (i : List String),
      loopRounds oracle q fuel round cache = some (traj, c, i) →
      cacheGet? cache t = some v → cacheGet? c t = some v
  | 0, round, cache, traj, c, i, h, hv => by
    simp only [loopRounds, Option.some.injEq, Prod.mk.injEq] at h
    obtain ⟨-, h2, -⟩ := h
    exact h2 ▸ hv
  | fuel + 1, round, cache, traj, c, i, h, hv => by
    simp only [loopRounds] at h
    cases hit : iterStrs ((orchestrator_agent oracle round q cache).1.parsed_llm.routing_decision) with
    | none => rw [hit] at h; exact absurd h (by simp)
    | some names =>
      rw [hit] at h
      simp only [] at h
      by_cases hterm : terminationCheck (names.map normalizeName) = true
      · rw [if_pos hterm] at h
        simp only [Option.some.injEq, Prod.mk.injEq] at h
        obtain ⟨-, h2, -⟩ := h
        exact h2 ▸ planPass_get q _ cache t v hv
      · rw [if_neg hterm] at h
        cases hrec : loopRounds oracle q fuel (round + 1)
            (routingPass q names (planPass q ((orchestrator_agent oracle round q cache).1.plan.getD []) cache).1).1 with
        | none => rw [hrec] at h; exact absurd h (by simp)
        | some res =>
          obtain ⟨rest, cF, invsF⟩ := res
          rw [hrec] at h
          simp only [Option.some.injEq, Prod.mk.injEq] at h
          obtain ⟨-, h2, -⟩ := h
          exact h2 ▸ loopRounds_get oracle q t v fuel (round + 1) _ rest cF invsF hrec
            (routingPass_get q names _ t v (planPass_get q _ cache t v hv))

/-- A loop with budget left always contributes at least one round. -/
theorem loopRounds_ne_nil (oracle : Oracle) (q : String) (fuel round : Nat) (cache : Cache)
    (traj : List RoundEntry) (c : Cache) (i : List String)
    (h : loopRounds oracle q (fuel + 1) round cache = some (traj, c, i)) : traj ≠ [] := by
  simp only [loopRounds] at h
  cases hit : iterStrs ((orchestrator_agent oracle round q cache).1.parsed_llm.routing_decision) with
  | none => rw [hit] at h; exact absurd h (by simp)
  | some names =>
    rw [hit] at h
    simp only [] at h
    by_cases hterm : terminationCheck (names.map normalizeName) = true
    · rw [if_pos hterm] at h
      simp only [Option.some.injEq, Prod.mk.injEq] at h
      obtain ⟨h1, -, -⟩ := h
      exact h1 ▸ (by simp)
    · rw [if_neg hterm] at h
      cases hrec : loopRounds oracle q fuel (round + 1)
          (routingPass q names (planPass q ((orchestrator_agent oracle round q cache).1.plan.getD []) cache).1).1 with
      | none => rw [hrec] at h; exact absurd h (by simp)
      | some res =>
        obtain ⟨rest, cF, invsF⟩ := res
        rw [hrec] at h
        simp only [Option.some.injEq, Prod.mk.injEq] at h
        obtain ⟨h1, -, -⟩ := h
        exact h1 ▸ (by simp)

/-- The trajectory never exceeds the remaining budget. -/
theorem loopRounds_len (oracle : Oracle) (q : String) :
    ∀ (fuel round : Nat) (cache : Cache) (traj : List RoundEntry) (c : Cache) (i : List String),
      loopRounds oracle q fuel round cache = some (traj, c, i) → traj.length ≤ fuel
  | 0, round, cache, traj, c, i, h => by
    simp only [loopRounds, Option.some.injEq, Prod.mk.injEq] at h
    obtain ⟨h1, -, -⟩ := h
    simp [← h1]
  | fuel + 1, round, cache, traj, c, i, h => by
    simp only [loopRounds] at h
    cases hit : iterStrs ((orchestrator_agent oracle round q cache).1.parsed_llm.routing_decision) with
    | none => rw [hit] at h; exact absurd h (by simp)
    | some names =>
      rw [hit] at h
      simp only [] at h
      by_cases hterm : terminationCheck (names.map normalizeName) = true
      · rw [if_pos hterm] at h
        simp only [Option.some.injEq, Prod.mk.injEq] at h
        obtain ⟨h1, -, -⟩ := h
        simp [← h1]
      · rw [if_neg hterm] at h
        cases hrec : loopRounds oracle q fuel (round + 1)
            (routingPass q names (planPass q ((orchestrator_agent oracle round q cache).1.plan.getD []) cache).1).1 with
        | none => rw [hrec] at h; exact absurd h (by simp)
        | some res =>
          obtain ⟨rest, cF, invsF⟩ := res
          rw [hrec] at h
          simp only [Option.some.injEq, Prod.mk.injEq] at h
          obtain ⟨h1, -, -⟩ := h
          have := loopRounds_len oracle q fuel (round + 1) _ rest cF invsF hrec
          simp [← h1]
          omega

/-- When every decision response's routing_decision iterates to strings, the
loop never raises. -/
theorem loopRounds_isSome (oracle : Oracle) (q : String)
    (hor : ∀ r, (iterStrs (agent_output_parse (oracle r).2).routing_decision).isSome = true) :
    ∀ (fuel round : Nat) (cache : Cache),
      (loopRounds oracle q fuel round cache).isSome = true
  | 0, _, _ => by simp [loopRounds]
  | fuel + 1, round, cache => by
    simp only [loopRounds]
    cases hit : iterStrs ((orchestrator_agent oracle round q cache).1.parsed_llm.routing_decision) with
    | none =>
      have := hor round
      rw [orchestrator_parsed] at hit
      rw [hit] at this
      exact absurd this (by simp)
    | some names =>
      by_cases hterm : terminationCheck (names.map normalizeName) = true
      · simp [hterm]
      · simp only [hterm, if_false]
        have := loopRounds_isSome oracle q hor fuel (round + 1)
          (routingPass q names (planPass q ((orchestrator_agent oracle round q cache).1.plan.getD []) cache).1).1
        cases hrec : loopRounds oracle q fuel (round + 1)
            (routingPass q names (planPass q ((orchestrator_agent oracle round q cache).1.plan.getD []) cache).1).1 with
        | none => rw [hrec] at this; exact absurd this (by simp)
        | some res => obtain ⟨rest, cF, invsF⟩ := res; simp

/-! ## Claims -/

/-- C7: within one run, a cache entry once written is never overwritten — a
binding present when the loop reaches any state survives unchanged to the
final cache, because both dispatch passes write a key only when absent. -/
theorem claim_C7 (oracle : Oracle) (q t : String) (v : Option ToolResult)
    (fuel round : Nat) (cache : Cache) (traj : List RoundEntry) (c : Cache) (i : List String)
    (hrun : loopRounds oracle q fuel round cache = some (traj, c, i))
    (hv : cacheGet? cache t = some v) : cacheGet? c t = some v :=
  loopRounds_get oracle q t v fuel round cache traj c i hrun hv

/-- Witness for C7 at a concrete run: a pre-existing binding of key k
survives a full run of the done-stub oracle. -/
theorem claim_C7_witness :
    cacheGet? [(("k" : String), (none : Option ToolResult))] ("k") = some none ∧
    (loopRounds oracleDone ("") 10 0 [("k", none)]).map (fun r => cacheGet? r.2.1 ("k"))
      = some (some none) := by
  constructor
  · rfl
  · obtain ⟨traj, c, i, h⟩ :
        ∃ traj c i, loopRounds oracleDone ("") 10 0 [("k", none)] = some (traj, c, i) :=
      ⟨_, _, _, rfl⟩
    rw [h]
    exact congrArg some (claim_C7 oracleDone ("") ("k") none 10 0 _ traj c i h rfl)

/-- C8: a round whose parsed routing_decision is the empty list passes the
termination check vacuously, so the loop ends on that round with the empty
routing decision instead of iterating further. -/
theorem claim_C8 (oracle : Oracle) (q : String) (fuel round : Nat) (cache : Cache)
    (h : (agent_output_parse (oracle round).2).routing_decision = JsonVal.arr []) :
    ∃ c i, loopRounds oracle q (fuel + 1) round cache
      = some ([⟨(orchestrator_agent oracle round q cache).1, cache⟩], c, i) := by
  simp only [loopRounds]
  have hit : iterStrs ((orchestrator_agent oracle round q cache).1.parsed_llm.routing_decision)
      = some [] := by
    rw [orchestrator_parsed, h]; rfl
  rw [hit]
  simp only []
  rw [if_pos (by rfl)]
  exact ⟨_, _, rfl⟩

/-- Witness for C8: the not-JSON stub makes the parser default the routing
decision to the empty list, and the run ends after its first round. -/
theorem claim_C8_witness :
    (agent_output_parse ((oracleNotJson 0).2)).routing_decision = JsonVal.arr [] ∧
    ∃ c i, loopRounds oracleNotJson ("") 10 0 []
      = some ([⟨(orchestrator_agent oracleNotJson 0 ("") []).1, []⟩], c, i) :=
  ⟨rfl, claim_C8 oracleNotJson ("") 9 0 [] rfl⟩

/-- C2: the loop's break condition holds exactly when every normalized name
of the routing decision is in the Agent Registry or the normalized list is
exactly the done sentinel; a round satisfying it is the run's last, a round
failing it with budget left is followed by another round (or by the raise),
and the unknown-agent stub indeed takes a second round. -/
theorem claim_C2 :
    (∀ normalized : List String, terminationCheck normalized = true ↔
      ((∀ a ∈ normalized, a ∈ agentRegistryNames) ∨ normalized = ["done"])) ∧
    (∀ (oracle : Oracle) (q : String) (fuel round : Nat) (cache : Cache) (names : List String),
      iterStrs (agent_output_parse (oracle round).2).routing_decision = some names →
      terminationCheck (names.map normalizeName) = true →
      ∃ c i, loopRounds oracle q (fuel + 1) round cache
        = some ([⟨(orchestrator_agent oracle round q cache).1, cache⟩], c, i)) ∧
    (∀ (oracle : Oracle) (q : String) (fuel round : Nat) (cache : Cache) (names : List String),
      iterStrs (agent_output_parse (oracle round).2).routing_decision = some names →
      terminationCheck (names.map normalizeName) = false →
      loopRounds oracle q (fuel + 1 + 1) round cache = none ∨
        ∃ traj c i, loopRounds oracle q (fuel + 1 + 1) round cache = some (traj, c, i)
          ∧ 2 ≤ traj.length) ∧
    ((runnable_agent oracleUnknown []).map (fun out => out.1.trajectory.length) = some 2 ∧
      terminationCheck ((["unknown_agent"]).map normalizeName) = false) := by
  refine ⟨?_, ?_, ?_, rfl, rfl⟩
  · intro normalized
    have h : allowed_agents = agentRegistryNames := by decide
    simp [terminationCheck, h, List.all_eq_true, List.elem_iff]
  · intro oracle q fuel round cache names hit hterm
    simp only [loopRounds]
    rw [show iterStrs ((orchestrator_agent oracle round q cache).1.parsed_llm.routing_decision)
      = some names from hit]
    simp only []
    rw [if_pos hterm]
    exact ⟨_, _, rfl⟩
  · intro oracle q fuel round cache names hit hterm
    rw [loopRounds_succ]
    rw [show iterStrs ((orchestrator_agent oracle round q cache).1.parsed_llm.routing_decision)
      = some names from hit]
    simp only []
    rw [if_neg (by simp [hterm])]
    cases hrec : loopRounds oracle q (fuel + 1) (round + 1)
        (routingPass q names
          (planPass q ((orchestrator_agent oracle round q cache).1.plan.getD []) cache).1).1 with
    | none => exact Or.inl rfl
    | some res =>
      obtain ⟨rest, cF, invsF⟩ := res
      right
      refine ⟨_, _, _, rfl, ?_⟩
      have hne := loopRounds_ne_nil oracle q fuel (round + 1) _ rest cF invsF hrec
      have h1 : 0 < rest.length := List.length_pos.mpr hne
      simp only [List.length_cons]
      omega

/-- Witness for C2: the done stub satisfies the check on round one and the
loop stops there. -/
theorem claim_C2_witness :
    iterStrs (agent_output_parse ((oracleDone 0).2)).routing_decision = some ["done"] ∧
    terminationCheck ((["done"]).map normalizeName) = true ∧
    ∃ c i, loopRounds oracleDone ("") 10 0 []
      = some ([⟨(orchestrator_agent oracleDone 0 ("") []).1, []⟩], c, i) :=
  ⟨rfl, rfl, claim_C2.2.1 oracleDone ("") 9 0 [] (["done"]) rfl rfl⟩

/-- C3 (amended): whenever every decision response's routing_decision
iterates to strings — which includes every parse-failure default — the loop
runs at most max_steps rounds and returns an outcome with a non-empty
trajectory whose last round's result is the final_decision.  (Without that
condition the run can raise and return nothing; see the counterexample.) -/
theorem claim_C3 (oracle : Oracle) (case_dict : List (String × String))
    (h : ∀ r, (iterStrs (agent_output_parse (oracle r).2).routing_decision).isSome = true) :
    ∃ out, runnable_agent oracle case_dict = some out ∧
      out.1.trajectory ≠ [] ∧
      out.1.trajectory.length ≤ max_steps ∧
      ∃ last, out.1.trajectory.getLast? = some last ∧
        out.1.final_decision = last.orchestrator_result := by
  have hs := loopRounds_isSome oracle (format_case_dict case_dict) h max_steps 0 []
  cases hrun : loopRounds oracle (format_case_dict case_dict) max_steps 0 [] with
  | none => rw [hrun] at hs; exact absurd hs (by simp)
  | some res =>
    obtain ⟨traj, c, i⟩ := res
    have hne : traj ≠ [] := loopRounds_ne_nil oracle _ 9 0 [] traj c i hrun
    have hlen : traj.length ≤ max_steps :=
      loopRounds_len oracle _ max_steps 0 [] traj c i hrun
    obtain ⟨last, hlast⟩ : ∃ last, traj.getLast? = some last := by
      cases hg : traj.getLast? with
      | none => exact absurd (List.getLast?_eq_none_iff.mp hg) hne
      | some l => exact ⟨l, rfl⟩
    refine ⟨⟨⟨traj, last.orchestrator_result⟩, c, i⟩, ?_, hne, hlen, last, hlast, rfl⟩
    simp only [runnable_agent]
    rw [hrun]
    simp only []
    rw [hlast]

/-- Witness for C3 at the not-JSON stub, whose routing defaults always
iterate (to the empty list). -/
theorem claim_C3_witness :
    ∃ out, runnable_agent oracleNotJson [] = some out ∧
      out.1.trajectory ≠ [] ∧
      out.1.trajectory.length ≤ max_steps ∧
      ∃ last, out.1.trajectory.getLast? = some last ∧
        out.1.final_decision = last.orchestrator_result :=
  claim_C3 oracleNotJson [] (fun _ => rfl)

/-- Counterexample to C3 as stated: a decision response whose
routing_decision is the JSON number 0 is accepted by the parser but makes
line 183 raise TypeError, so the run returns no outcome at all. -/
theorem claim_C3_counterexample : runnable_agent oracleBadType [] = none := rfl

/-- C1 (amended): once a name is a cache key, the loop's two dispatch passes
skip it and never invoke it again; but the orchestrator step's own plan
execution (line 136) consults no cache, so a tool can still be invoked more
than once per run — see the counterexample. -/
theorem claim_C1 (q : String) (ts : List String) (cache : Cache) (t : String)
    (h : cacheHas cache t = true) :
    t ∉ (planPass q ts cache).2 ∧ t ∉ (routingPass q ts cache).2 :=
  ⟨planPass_not_inv q ts cache t h, routingPass_not_inv q ts cache t h⟩

/-- Witness for C1: a cached key is skipped by both passes. -/
theorem claim_C1_witness :
    cacheHas [(("x" : String), (none : Option ToolResult))] ("x") = true ∧
    ("x" ∉ (planPass ("") (["x"]) [("x", none)]).2 ∧
      "x" ∉ (routingPass ("") (["x"]) [("x", none)]).2) :=
  ⟨rfl, claim_C1 ("") (["x"]) [("x", none)] ("x") rfl⟩

/-- Counterexample to C1 as stated: planning search_latest_knowledge in
round one invokes it twice in a single run — once inside orchestrator_agent
(line 136) and once in the loop's plan pass (line 181). -/
theorem claim_C1_counterexample :
    (runnable_agent oracleC1 []).map (fun out => out.2.2.count ("search_latest_knowledge"))
      = some 2 ∧ ¬((2 : Nat) ≤ 1) :=
  ⟨rfl, by decide⟩

/-- C4 (amended): the decision parser never raises and always yields the
three fields; malformed JSON (or JSON that is not an object) yields the full
parse-failure default; a valid object with missing keys yields the per-key
empty defaults, whose reasoning is the empty string, not the marker. -/
theorem claim_C4 :
    (∀ content, jsonParse content = none → agent_output_parse content = parseFailDefault) ∧
    agent_output_parse ("not json") = parseFailDefault ∧
    agent_output_parse ("\x7b\x7d")
      = ⟨JsonVal.str (""), JsonVal.arr [], JsonVal.obj []⟩ ∧
    (agent_output_parse
        ("\x7b\"chain_of_thought\":\"x\",\"routing_decision\":[\"done\"],\"confidences\":\x7b\x7d\x7d")).routing_decision
      = JsonVal.arr [JsonVal.str ("done")] := by
  refine ⟨?_, rfl, rfl, rfl⟩
  intro content h
  simp [agent_output_parse, h]

/-- Witness for C4: the spec's malformed input takes the failure default. -/
theorem claim_C4_witness :
    jsonParse ("not json") = none ∧ agent_output_parse ("not json") = parseFailDefault :=
  ⟨rfl, claim_C4.1 ("not json") rfl⟩

/-- Counterexample to C4 as stated: the empty JSON object parses, so the
missing keys do not produce the could-not-parse marker — the reasoning field
is the empty string instead. -/
theorem claim_C4_counterexample :
    (agent_output_parse ("\x7b\x7d")).chain_of_thought = JsonVal.str ("") ∧
    JsonVal.str ("") ≠ JsonVal.str ("Could not parse LLM output.") := by
  refine ⟨rfl, ?_⟩
  intro h
  injection h with h2
  exact absurd h2 (by decide)

/-- C5 (amended): a JSON array of strings is returned with entries stripped;
when JSON parsing fails the comma-else-newline fallback applies, stripped
with empties dropped (so the four spec examples hold); but JSON that parses
to a non-array makes the function return no list at all (Python None). -/
theorem claim_C5 :
    decide_and_call_tool ("[\"a\",\"b\"]") = some ["a", "b"] ∧
    decide_and_call_tool ("a, b, c") = some ["a", "b", "c"] ∧
    decide_and_call_tool ("a\nb") = some ["a", "b"] ∧
    decide_and_call_tool ("") = some [] ∧
    (∀ content, jsonParse (pyStrip content) = none →
      decide_and_call_tool content = some (tool_fallback (pyStrip content))) ∧
    (∀ content xs ss, jsonParse (pyStrip content) = some (JsonVal.arr xs) →
      allStrings xs = some ss → decide_and_call_tool content = some (ss.map pyStrip)) ∧
    (∀ content v, jsonParse (pyStrip content) = some v → v.isArr = false →
      decide_and_call_tool content = none) := by
  refine ⟨rfl, rfl, rfl, rfl, ?_, ?_, ?_⟩
  · intro content h
    simp [decide_and_call_tool, parse_tool_decisions, h]
  · intro content xs ss h hss
    simp [decide_and_call_tool, parse_tool_decisions, h, hss]
  · intro content v h hv
    simp only [decide_and_call_tool, parse_tool_decisions, h]
    cases v with
    | arr xs => exact absurd hv (by simp [JsonVal.isArr])
    | null => rfl
    | bool b => rfl
    | num l => rfl
    | str s => rfl
    | obj f => rfl

/-- Witness for C5: a parse failure takes the fallback; a JSON number
returns no list. -/
theorem claim_C5_witness :
    (jsonParse (pyStrip ("x,y")) = none ∧
      decide_and_call_tool ("x,y") = some (tool_fallback (pyStrip ("x,y")))) ∧
    (jsonParse (pyStrip ("42")) = some (JsonVal.num ("42")) ∧
      decide_and_call_tool ("42") = none) :=
  ⟨⟨rfl, claim_C5.2.2.2.2.1 ("x,y") rfl⟩,
   ⟨rfl, claim_C5.2.2.2.2.2.2 ("42") (JsonVal.num ("42")) rfl rfl⟩⟩

/-- Counterexample to C5 as stated: the input 42 is valid JSON but not an
array, so the parser returns Python None rather than the claimed
fallback-split list containing the text. -/
theorem claim_C5_counterexample :
    decide_and_call_tool ("42") = none ∧
    (none : Option (List String)) ≠ some ["42"] := by
  refine ⟨rfl, ?_⟩
  intro h
  exact Option.noConfusion h

/-- C6 (amended): dispatching a name outside the Tool Registry yields null
rather than an error, but the loop then stores that null under the unknown
name, so cache keys are not confined to the registry — see the
counterexample. -/
theorem claim_C6 :
    (∀ (question name : String), toolRegistryNames.contains name = false →
      execute_tool name question = none) ∧
    (runnable_agent oracleUnknown []).map (fun out => cacheGet? out.2.1 ("unknown_agent"))
      = some (some none) := by
  refine ⟨?_, rfl⟩
  intro question name h
  have hmem : name ∉ toolRegistryNames := by
    intro hm
    have h2 : toolRegistryNames.contains name = true := List.elem_iff.mpr hm
    rw [h2] at h
    exact absurd h (by decide)
  simp only [execute_tool]
  rw [if_neg (fun he => hmem (by rw [he]; decide)),
    if_neg (fun he => hmem (by rw [he]; decide)),
    if_neg (fun he => hmem (by rw [he]; decide)),
    if_neg (fun he => hmem (by rw [he]; decide))]

/-- Witness for C6: an arbitrary unknown name dispatches to null. -/
theorem claim_C6_witness :
    toolRegistryNames.contains ("bogus") = false ∧
    execute_tool ("bogus") ("q") = none :=
  ⟨rfl, claim_C6.1 ("q") ("bogus") rfl⟩

/-- Counterexample to C6 as stated: after the unknown-agent round the cache
holds the key unknown_agent, which is not in the Tool Registry. -/
theorem claim_C6_counterexample :
    (runnable_agent oracleUnknown []).map (fun out => cacheHas out.2.1 ("unknown_agent"))
      = some true ∧
    toolRegistryNames.contains ("unknown_agent") = false :=
  ⟨rfl, rfl⟩

set_option maxRecDepth 8192 in
/-- C9 (amended): the tool-selection call sends a single system message — the
question is not passed as a separate user message — but that routing prompt
embeds the case text inline and lists only the tool names; it carries neither
the tool descriptions nor the agent descriptions. -/
theorem claim_C9 :
    (∀ (q : String) (tl : List String),
      chat_prompt_template (routing_prompt q tl) none none
        = [("system", routing_prompt q tl)]) ∧
    (strContainsSub (routing_prompt ("XCASE2") toolRegistryNames) ("XCASE2") = true) ∧
    ((AGENTS.map (fun a => a.description)).all
      (fun d => !(strContainsSub (routing_prompt ("XCASE2") toolRegistryNames) d)) = true) ∧
    ((TOOLS.map (fun t => t.description)).all
      (fun d => !(strContainsSub (routing_prompt ("XCASE2") toolRegistryNames) d)) = true) := by
  refine ⟨fun q tl => rfl, ?_, ?_, ?_⟩ <;> decide

set_option maxRecDepth 8192 in
/-- Counterexample to C9 as stated: the routing prompt contains the case
text verbatim. -/
theorem claim_C9_counterexample :
    strContainsSub (routing_prompt ("XCASEX") (TOOLS.map (fun t => t.name))) ("XCASEX")
      = true := by
  decide

/-- C10: with the done stub — no tool calls requested, routing_decision the
done sentinel on round one — the run's trajectory has length one and the
final decision's routing_decision is the done singleton. -/
theorem claim_C10 :
    (runnable_agent oracleDone []).map
      (fun out => (out.1.trajectory.length, out.1.final_decision.parsed_llm.routing_decision))
      = some (1, JsonVal.arr [JsonVal.str ("done")]) := rfl
